import Mathlib

/-!
Verification development for the spider associative memory store.

The repository ships the engine as a compiled native module (the `spider`
package imported by `test_spider.py` and the example scripts); the engine
implementation itself is not part of this checkout, only its callers are.
Following the specification document, the engine is therefore modelled
here from the spec: nodes carry content, an embedding, a significance,
access bookkeeping, an optional cluster id and a liveness flag; node ids
are the dense, monotonically assigned indices into the node table; the
lifecycle engine computes the documented life score and vacuum sweep; the
HNSW index is idealized as an exact cosine-similarity k-NN over the live
nodes (the spec's search contract: the k closest live nodes, tombstones
skipped); persistence serializes the logical state and reloads it.

Timestamps are rationals (seconds), embeddings are rational vectors, and
scores live in the reals; floating point rounding is out of scope.
-/

namespace Spider

/-- Modelled from the spec: the error kinds surfaced across the engine
boundary (NotFound, DimensionMismatch, ZeroVector, Empty, InvalidParameter,
input/output failures, corrupt snapshots). -/
inductive Err where
  | NotFound
  | DimensionMismatch
  | ZeroVector
  | Empty
  | InvalidParameter
  | IoFailure
  | Corrupt
  deriving DecidableEq

/-- Modelled from the spec: a stored memory node.  The node id is not a
field: ids are the dense monotone indices into the node table of the
store.  The alive flag is false after vacuum removal (tombstoning). -/
structure Node where
  content : String
  embedding : List ℚ
  significance : ℕ
  access_count : ℕ
  last_access : ℚ
  cluster_id : Option ℕ
  alive : Bool
  deriving DecidableEq

/-- Modelled from the spec: the engine state.  The node table is a list
indexed by node id (dense monotone ids, removed ids never reused, removal
marks the node dead in place); the edge list is the semantic graph layer;
m, ef_construction and max_capacity are the construction parameters; dim
is the embedding dimensionality, fixed at first insertion. -/
structure DB where
  nodes : List Node
  edges : List (ℕ × ℕ)
  m : ℕ
  ef_construction : ℕ
  max_capacity : ℕ
  dim : Option ℕ
  deriving DecidableEq

/-- Helper pairing each list element with its index, starting at k. -/
def idxd {α : Type} : ℕ → List α → List (ℕ × α)
  | _, [] => []
  | k, a :: rest => (k, a) :: idxd (k + 1) rest

/-- Helper association-list lookup by numeric key (first match). -/
def assocFind {β : Type} (i : ℕ) : List (ℕ × β) → Option β
  | [] => none
  | p :: ps => if p.1 = i then some p.2 else assocFind i ps

/-- Dot product of two rational vectors (componentwise, zero padded). -/
def dot : List ℚ → List ℚ → ℚ
  | [], _ => 0
  | _, [] => 0
  | a :: as, b :: bs => a * b + dot as bs

/-- Squared Euclidean norm of a rational vector. -/
def norm2 (v : List ℚ) : ℚ := dot v v

/-- Modelled from the spec: cosine similarity of two embeddings,
dot product over the product of norms. -/
noncomputable def cosSim (a b : List ℚ) : ℝ :=
  ((dot a b : ℚ) : ℝ) / (Real.sqrt ((norm2 a : ℚ) : ℝ) * Real.sqrt ((norm2 b : ℚ) : ℝ))

/-- The live (non-tombstoned) entries of the node table, paired with
their ids. -/
def liveNodes (db : DB) : List (ℕ × Node) :=
  (idxd 0 db.nodes).filter fun p => p.2.alive

open Classical in
/-- Insertion step of a descending sort of scored ids (higher score first). -/
noncomputable def insertDesc (x : ℕ × ℝ) : List (ℕ × ℝ) → List (ℕ × ℝ)
  | [] => [x]
  | y :: ys => if y.2 ≤ x.2 then x :: y :: ys else y :: insertDesc x ys

/-- Descending sort of scored ids by score. -/
noncomputable def sortDesc : List (ℕ × ℝ) → List (ℕ × ℝ)
  | [] => []
  | x :: xs => insertDesc x (sortDesc xs)

/-- Modelled from the spec: the HNSW k-NN search, idealized as an exact
scan.  Every live node is scored with cosine similarity to the query
(score is similarity, higher is better), tombstoned nodes are skipped,
and the k closest results are returned as (id, score) pairs. -/
noncomputable def knnCore (live : List (ℕ × Node)) (q : List ℚ) (k : ℕ) : List (ℕ × ℝ) :=
  (sortDesc (live.map fun p => (p.1, cosSim q p.2.embedding))).take k

/-- The k-NN search over the whole store. -/
noncomputable def knn (db : DB) (q : List ℚ) (k : ℕ) : List (ℕ × ℝ) :=
  knnCore (liveNodes db) q k

/-- Graph-layer adjacency of a node id in the undirected edge list. -/
def neighborIds (edges : List (ℕ × ℕ)) (i : ℕ) : List ℕ :=
  edges.filterMap fun e =>
    if e.1 = i then some e.2 else if e.2 = i then some e.1 else none

/-- Reinforcement of a node on read: access_count is incremented and
last_access refreshed to the current time. -/
def touch (n : Node) (now : ℚ) : Node :=
  { n with access_count := n.access_count + 1, last_access := now }

/-- Tombstoning of a node: the alive flag is cleared, the rest kept. -/
def kill (n : Node) : Node := { n with alive := false }

/-- Placeholder record for a dead id slot reconstructed on load. -/
def tombstone : Node :=
  { content := "", embedding := [], significance := 0, access_count := 0,
    last_access := 0, cluster_id := none, alive := false }

/-- Modelled from the spec: the age of a node in hours,
max(0, (now - last_access) / 3600). -/
def ageHours (n : Node) (now : ℚ) : ℚ := max 0 ((now - n.last_access) / 3600)

/-- Modelled from the spec: the life score of a node,
(significance * 10 + access_count * 5) / log2(2 + age_hours). -/
noncomputable def life_score (n : Node) (now : ℚ) : ℝ :=
  ((n.significance * 10 + n.access_count * 5 : ℕ) : ℝ) /
    Real.logb 2 (2 + ((ageHours n now : ℚ) : ℝ))

/-- Modelled from the spec: the public life-score query; fails with
NotFound on an absent or dead id. -/
noncomputable def calculate_life_score (db : DB) (i : ℕ) (now : ℚ) : Except Err ℝ :=
  match db.nodes[i]? with
  | some n => if n.alive then .ok (life_score n now) else .error .NotFound
  | none => .error .NotFound

/-- Modelled from the spec: get_node returns the content of a live node
and reinforces it (access_count + 1, last_access = now); an absent or
dead id fails with NotFound. -/
def get_node (db : DB) (i : ℕ) (now : ℚ) : Except Err (String × DB) :=
  match db.nodes[i]? with
  | some n =>
      if n.alive then
        .ok (n.content, { db with nodes := db.nodes.set i (touch n now) })
      else .error .NotFound
  | none => .error .NotFound

open Classical in
/-- Modelled from the spec: vacuum(threshold) computes the life score of
every live node, collects those strictly below the threshold, marks them
dead (Store.remove), prunes their incident edges, and returns the list of
removed ids. -/
noncomputable def vacuum (db : DB) (t : ℚ) (now : ℚ) : List ℕ × DB :=
  let dead := ((liveNodes db).filter fun p => decide (life_score p.2 now < (t : ℝ))).map (·.1)
  (dead,
    { db with
      nodes := (idxd 0 db.nodes).map fun p => if p.1 ∈ dead then kill p.2 else p.2,
      edges := db.edges.filter fun e => !(e.1 ∈ dead || e.2 ∈ dead) })

/-- Dimensionality check for an embedding against the store: the length
is enforced once fixed by the first insertion. -/
def dimOk (db : DB) (e : List ℚ) : Bool :=
  match db.dim with
  | some d => e.length == d
  | none => true

/-- Fresh node record minted by add_node: access_count 0, last_access
now, no cluster, alive. -/
def mkNode (c : String) (e : List ℚ) (sig : ℕ) (now : ℚ) : Node :=
  { content := c, embedding := e, significance := sig, access_count := 0,
    last_access := now, cluster_id := none, alive := true }

open Classical in
/-- Modelled from the spec: the auto-link edge set of an insertion: when
a threshold tau is supplied, an 8-NN search runs against the existing
index and an edge from the minted id is added to every returned neighbor
whose returned similarity is at least tau; the default (no threshold)
disables auto-linking. -/
noncomputable def autoEdges (db : DB) (e : List ℚ) (tau : Option ℚ) : List (ℕ × ℕ) :=
  match tau with
  | none => []
  | some t =>
      ((knn db e 8).filter fun p => decide ((t : ℝ) ≤ p.2)).map
        fun p => (db.nodes.length, p.1)

/-- Modelled from the spec: add_node validates the embedding (dimension,
zero norm, significance range), mints the next id, inserts the node with
access_count 0 and last_access now, and adds the auto-link edges. -/
noncomputable def add_node (db : DB) (content : String) (e : List ℚ) (sig : ℕ)
    (tau : Option ℚ) (now : ℚ) : Except Err (ℕ × DB) :=
  if dimOk db e = false then .error .DimensionMismatch
  else if norm2 e = 0 then .error .ZeroVector
  else if 100 < sig then .error .InvalidParameter
  else
    .ok (db.nodes.length,
      { db with nodes := db.nodes ++ [mkNode content e sig now],
                edges := autoEdges db e tau ++ db.edges,
                dim := some e.length })

/-- Monotone normalization of a life score into the unit interval,
used by the blended ranking. -/
noncomputable def normLife (l : ℝ) : ℝ := l / (1 + l)

open Classical in
/-- Modelled from the spec: the blended hybrid-search score,
0.7 * cosine similarity + 0.2 * normalized life score + 0.1 * same-cluster
indicator against the top-1 candidate's cluster. -/
noncomputable def blend (q : List ℚ) (n : Node) (c1 : Option ℕ) (now : ℚ) : ℝ :=
  0.7 * cosSim q n.embedding + 0.2 * normLife (life_score n now) +
    0.1 * (if n.cluster_id ≠ none ∧ n.cluster_id = c1 then 1 else 0)

open Classical in
/-- Modelled from the spec: hybrid search over the live node table: a
2k-oversampled k-NN candidate set, one-hop graph-neighbor expansion
restricted to live ids, blended rescoring of every candidate, and the
top k by blended score. -/
noncomputable def hybridCore (live : List (ℕ × Node)) (edges : List (ℕ × ℕ))
    (q : List ℚ) (k ef : ℕ) (now : ℚ) : List (ℕ × ℝ) :=
  let base := knnCore live q (2 * k)
  let baseIds := base.map (·.1)
  let hop := (baseIds.flatMap fun i => neighborIds edges i).filter fun j =>
    decide ((assocFind j live).isSome = true) && !(decide (j ∈ baseIds))
  let cands := baseIds ++ hop.dedup
  let c1 := (base.head?).bind fun p => (assocFind p.1 live).bind Node.cluster_id
  let blended := cands.filterMap fun i => (assocFind i live).map fun n => (i, blend q n c1 now)
  (sortDesc blended).take k

/-- The hybrid search over the whole store (ef is the beam width of the
HNSW scan, absorbed by the exact-search idealization). -/
noncomputable def hybrid_search (db : DB) (q : List ℚ) (k ef : ℕ) (now : ℚ) : List (ℕ × ℝ) :=
  hybridCore (liveNodes db) db.edges q k ef now

/-- Modelled from the spec: the persisted record of one node: id (the
record key), significance, access_count, last_access, cluster_id,
content, and embedding. -/
structure NodeRec where
  significance : ℕ
  access_count : ℕ
  last_access : ℚ
  cluster_id : Option ℕ
  content : String
  embedding : List ℚ
  deriving DecidableEq

/-- Record extracted from a live node for the snapshot node table. -/
def recOf (n : Node) : NodeRec :=
  { significance := n.significance, access_count := n.access_count,
    last_access := n.last_access, cluster_id := n.cluster_id,
    content := n.content, embedding := n.embedding }

/-- Node rebuilt from a persisted record (persisted nodes are live). -/
def nodeOfRec (r : NodeRec) : Node :=
  { content := r.content, embedding := r.embedding, significance := r.significance,
    access_count := r.access_count, last_access := r.last_access,
    cluster_id := r.cluster_id, alive := true }

/-- Modelled from the spec: the self-describing snapshot: embedding
dimension, HNSW parameters, node table (records of the live nodes keyed
by id), and edge table.  The id horizon (count) is kept so that removed
ids are never reused after a reload. -/
structure Snapshot where
  dim : Option ℕ
  m : ℕ
  ef_construction : ℕ
  max_capacity : ℕ
  count : ℕ
  node_recs : List (ℕ × NodeRec)
  edge_recs : List (ℕ × ℕ)
  deriving DecidableEq

/-- Modelled from the spec: save serializes the parameters, the live
node records keyed by id, and the edge table. -/
def save (db : DB) : Snapshot :=
  { dim := db.dim, m := db.m, ef_construction := db.ef_construction,
    max_capacity := db.max_capacity, count := db.nodes.length,
    node_recs := (liveNodes db).map fun p => (p.1, recOf p.2),
    edge_recs := db.edges }

/-- Modelled from the spec: load rebuilds the store from a snapshot,
placing each persisted record back at its id and leaving dead id slots
as tombstones (HNSW neighbor lists are rebuilt, not persisted). -/
def load (s : Snapshot) : DB :=
  { nodes := (List.range s.count).map fun i =>
      match assocFind i s.node_recs with
      | some r => nodeOfRec r
      | none => tombstone,
    edges := s.edge_recs, m := s.m, ef_construction := s.ef_construction,
    max_capacity := s.max_capacity, dim := s.dim }

/-- Modelled from the spec: the default built-in soft capacity (the spec
fixes defaults M = 16 and ef_construction = 200 and leaves the capacity
default open; it is pinned here as a constant). -/
def defaultMaxCapacity : ℕ := 10000

/-- Modelled from the spec: the constructor SpiderDB(path, max_capacity,
m, ef_construction).  The stored argument is the snapshot found at the
path (none when the path is absent or no path is given): an existing
snapshot is loaded and the tuning parameters are ignored, otherwise a
fresh engine is created with the given or default parameters. -/
def SpiderDB (stored : Option Snapshot) (cap mParam efc : Option ℕ) : DB :=
  match stored with
  | some s => load s
  | none =>
      { nodes := [], edges := [], m := mParam.getD 16,
        ef_construction := efc.getD 200,
        max_capacity := cap.getD defaultMaxCapacity, dim := none }

/-- Fresh engine as built by the regression test (spider.SpiderDB()). -/
def freshDB : DB := SpiderDB none none none none

/-- Fixture node of significance 7 created at time 0. -/
def n1w : Node :=
  { content := "w", embedding := [1, 0], significance := 7, access_count := 0,
    last_access := 0, cluster_id := none, alive := true }

/-- Fixture store holding only n1w. -/
def db1w : DB :=
  { nodes := [n1w], edges := [], m := 16, ef_construction := 200,
    max_capacity := 10000, dim := some 2 }

/-- Fixture node of significance 0 (life score 0 at creation). -/
def nZ : Node :=
  { content := "z", embedding := [1, 0], significance := 0, access_count := 0,
    last_access := 0, cluster_id := none, alive := true }

/-- Fixture node of significance 10 (life score 100 at creation). -/
def nTen : Node :=
  { content := "ten", embedding := [0, 1], significance := 10, access_count := 0,
    last_access := 0, cluster_id := none, alive := true }

/-- Fixture store holding nZ and nTen. -/
def dbZ2 : DB :=
  { nodes := [nZ, nTen], edges := [], m := 16, ef_construction := 200,
    max_capacity := 10000, dim := some 2 }

/-- State of dbZ2 after vacuum at threshold 5: nZ tombstoned. -/
def dbZ2post : DB :=
  { nodes := [kill nZ, nTen], edges := [], m := 16, ef_construction := 200,
    max_capacity := 10000, dim := some 2 }

/-- Scenario node A, significance 10. -/
def nA3 : Node :=
  { content := "A", embedding := [1, 0], significance := 10, access_count := 0,
    last_access := 0, cluster_id := none, alive := true }

/-- Scenario node B, significance 5. -/
def nB3 : Node :=
  { content := "B", embedding := [1, 0], significance := 5, access_count := 0,
    last_access := 0, cluster_id := none, alive := true }

/-- Scenario node C, significance 1. -/
def nC3node : Node :=
  { content := "C", embedding := [1, 0], significance := 1, access_count := 0,
    last_access := 0, cluster_id := none, alive := true }

/-- Store after inserting A. -/
def db3A : DB :=
  { nodes := [nA3], edges := [], m := 16, ef_construction := 200,
    max_capacity := 10000, dim := some 2 }

/-- Store after inserting A and B. -/
def db3B : DB :=
  { nodes := [nA3, nB3], edges := [], m := 16, ef_construction := 200,
    max_capacity := 10000, dim := some 2 }

/-- Store after inserting A, B and C. -/
def db3C : DB :=
  { nodes := [nA3, nB3, nC3node], edges := [], m := 16, ef_construction := 200,
    max_capacity := 10000, dim := some 2 }

/-- Fixture node inserted by the add_node evaluation helper. -/
def nW : Node :=
  { content := "x", embedding := [1, 0], significance := 3, access_count := 0,
    last_access := 0, cluster_id := none, alive := true }

/-- Store produced by adding nW to the fresh engine. -/
def dbW : DB :=
  { nodes := [nW], edges := [], m := 16, ef_construction := 200,
    max_capacity := 10000, dim := some 2 }

/-- Fixture node with a cluster id, for the round-trip witness. -/
def n5a : Node :=
  { content := "a", embedding := [1, 0], significance := 3, access_count := 0,
    last_access := 0, cluster_id := some 0, alive := true }

/-- Second round-trip fixture node, already accessed twice. -/
def n5b : Node :=
  { content := "b", embedding := [0, 1], significance := 4, access_count := 2,
    last_access := 1, cluster_id := some 1, alive := true }

/-- Round-trip fixture store with one edge. -/
def db5 : DB :=
  { nodes := [n5a, n5b], edges := [(0, 1)], m := 16, ef_construction := 200,
    max_capacity := 10000, dim := some 2 }

/-- Auto-link fixture: the single pre-existing node. -/
def nN1 : Node :=
  { content := "a", embedding := [1, 0], significance := 5, access_count := 0,
    last_access := 0, cluster_id := none, alive := true }

/-- Auto-link fixture store holding nN1. -/
def dbN : DB :=
  { nodes := [nN1], edges := [], m := 16, ef_construction := 200,
    max_capacity := 10000, dim := some 2 }

/-- Node with embedding opposite to nN1. -/
def nN2 : Node :=
  { content := "b", embedding := [-1, 0], significance := 5, access_count := 0,
    last_access := 0, cluster_id := none, alive := true }

/-- Store after adding nN2 to dbN with auto-link threshold 0: the
returned neighbor has similarity -1, so no edge is formed. -/
def dbN2 : DB :=
  { nodes := [nN1, nN2], edges := [], m := 16, ef_construction := 200,
    max_capacity := 10000, dim := some 2 }

theorem idxd_mem {α : Type} (l : List α) : ∀ (k i : ℕ) (a : α),
    (i, a) ∈ idxd k l ↔ ∃ j, i = k + j ∧ l[j]? = some a := by
  induction l with
  | nil => intro k i a; simp [idxd]
  | cons b rest ih =>
    intro k i a
    simp only [idxd, List.mem_cons, Prod.mk.injEq, ih]
    constructor
    · rintro (⟨rfl, rfl⟩ | ⟨j, rfl, hj⟩)
      · exact ⟨0, by omega, by simp⟩
      · exact ⟨j + 1, by omega, by simpa using hj⟩
    · rintro ⟨j, rfl, hj⟩
      cases j with
      | zero =>
        left
        refine ⟨by omega, ?_⟩
        simpa using hj.symm
      | succ j =>
        right
        exact ⟨j, by omega, by simpa using hj⟩

theorem idxd_map_getElem? {α β : Type} (l : List α) (f : ℕ × α → β) :
    ∀ (k j : ℕ), ((idxd k l).map f)[j]? = (l[j]?).map fun a => f (k + j, a) := by
  induction l with
  | nil => intro k j; simp [idxd]
  | cons b rest ih =>
    intro k j
    cases j with
    | zero => simp [idxd]
    | succ j =>
      simp only [idxd, List.map_cons, List.getElem?_cons_succ]
      rw [ih (k + 1) j]
      have e1 : k + 1 + j = k + (j + 1) := by omega
      rw [e1]

theorem idxd_map_commute {α β : Type} (l : List α) (f : α → β) :
    ∀ k, idxd k (l.map f) = (idxd k l).map fun p => (p.1, f p.2) := by
  induction l with
  | nil => intro k; simp [idxd]
  | cons b rest ih => intro k; simp [idxd, ih]

theorem mem_insertDesc (x z : ℕ × ℝ) : ∀ l : List (ℕ × ℝ),
    z ∈ insertDesc x l ↔ z = x ∨ z ∈ l := by
  intro l
  induction l with
  | nil => simp [insertDesc]
  | cons y ys ih =>
    by_cases h : y.2 ≤ x.2
    · simp [insertDesc, h]
    · simp only [insertDesc, if_neg h, List.mem_cons, ih]
      tauto

theorem mem_sortDesc (z : ℕ × ℝ) : ∀ l : List (ℕ × ℝ), z ∈ sortDesc l ↔ z ∈ l := by
  intro l
  induction l with
  | nil => simp [sortDesc]
  | cons x xs ih => simp [sortDesc, mem_insertDesc, ih]

theorem assocFind_mem {β : Type} (i : ℕ) (b : β) : ∀ L : List (ℕ × β),
    assocFind i L = some b → (i, b) ∈ L := by
  intro L
  induction L with
  | nil => intro h; simp [assocFind] at h
  | cons p ps ih =>
    intro h
    by_cases hp : p.1 = i
    · rw [assocFind, if_pos hp] at h
      obtain ⟨p1, p2⟩ := p
      obtain rfl := Option.some.inj h
      simp only at hp
      subst hp
      exact List.mem_cons_self _ _
    · rw [assocFind, if_neg hp] at h
      exact List.mem_cons_of_mem _ (ih h)

theorem liveNodes_mem (db : DB) (i : ℕ) (n : Node) :
    (i, n) ∈ liveNodes db ↔ db.nodes[i]? = some n ∧ n.alive = true := by
  simp [liveNodes, List.mem_filter, idxd_mem]

theorem knnCore_mem (live : List (ℕ × Node)) (q : List ℚ) (k : ℕ) (p : ℕ × ℝ)
    (h : p ∈ knnCore live q k) : ∃ n, (p.1, n) ∈ live := by
  unfold knnCore at h
  have h1 := List.take_subset _ _ h
  rw [mem_sortDesc] at h1
  obtain ⟨r, hr, he⟩ := List.mem_map.mp h1
  subst he
  exact ⟨r.2, hr⟩

theorem hybridCore_mem (live : List (ℕ × Node)) (edges : List (ℕ × ℕ))
    (q : List ℚ) (k ef : ℕ) (now : ℚ) (p : ℕ × ℝ)
    (h : p ∈ hybridCore live edges q k ef now) : ∃ n, (p.1, n) ∈ live := by
  simp only [hybridCore] at h
  have h1 := List.take_subset _ _ h
  rw [mem_sortDesc] at h1
  obtain ⟨i, hi, hmap⟩ := List.mem_filterMap.mp h1
  obtain ⟨n, hn, hpn⟩ := Option.map_eq_some'.mp hmap
  subst hpn
  exact ⟨n, assocFind_mem _ _ _ hn⟩

theorem nodeOfRec_recOf (n : Node) (h : n.alive = true) : nodeOfRec (recOf n) = n := by
  cases n
  simp only [recOf, nodeOfRec]
  simp only [Node.alive] at h
  rw [h]

theorem assocFind_save_lt {l : List Node} : ∀ {k i : ℕ}, i < k →
    assocFind i (((idxd k l).filter fun p => p.2.alive).map fun p => (p.1, recOf p.2)) =
      none := by
  induction l with
  | nil => intro k i _; simp [idxd, assocFind]
  | cons b rest ih =>
    intro k i h
    simp only [idxd, List.filter_cons]
    by_cases hb : b.alive = true
    · simp only [hb, if_true, List.map_cons, assocFind]
      rw [if_neg (by omega)]
      exact ih (by omega)
    · simp only [hb, if_false]
      exact ih (by omega)

theorem assocFind_save {l : List Node} : ∀ {k i : ℕ}, k ≤ i →
    assocFind i (((idxd k l).filter fun p => p.2.alive).map fun p => (p.1, recOf p.2)) =
      (l[i - k]?).bind fun n => if n.alive then some (recOf n) else none := by
  induction l with
  | nil => intro k i _; simp [idxd, assocFind]
  | cons b rest ih =>
    intro k i h
    simp only [idxd, List.filter_cons]
    by_cases hik : i = k
    · subst hik
      simp only [Nat.sub_self, List.getElem?_cons_zero]
      by_cases hb : b.alive = true
      · rw [if_pos (by simpa using hb)]
        simp [assocFind, hb]
      · rw [if_neg (by simpa using hb)]
        rw [assocFind_save_lt (by omega)]
        simp [hb]
    · have hk : k + 1 ≤ i := by omega
      have hsub : i - k = (i - (k + 1)) + 1 := by omega
      rw [hsub, List.getElem?_cons_succ]
      by_cases hb : b.alive = true
      · rw [if_pos (by simpa using hb)]
        simp only [List.map_cons, assocFind]
        rw [if_neg (by omega)]
        exact ih hk
      · rw [if_neg (by simpa using hb)]
        exact ih hk

theorem load_save_nodes (db : DB) :
    (load (save db)).nodes = db.nodes.map fun n => if n.alive then n else tombstone := by
  apply List.ext_getElem?
  intro j
  simp only [load, save, List.getElem?_map]
  by_cases hj : j < db.nodes.length
  · rw [List.getElem?_range hj]
    obtain ⟨n, hn⟩ : ∃ n, db.nodes[j]? = some n :=
      ⟨db.nodes.get ⟨j, hj⟩, List.getElem?_eq_getElem hj⟩
    rw [hn]
    have hs : assocFind j ((liveNodes db).map fun p => (p.1, recOf p.2)) =
        (db.nodes[j]?).bind fun n => if n.alive then some (recOf n) else none := by
      have h0 := assocFind_save (l := db.nodes) (k := 0) (i := j) (by omega)
      simpa [liveNodes] using h0
    rw [hn] at hs
    simp only [Option.map_some', hs]
    by_cases ha : n.alive = true
    · simp only [ha, if_true, Option.some_bind]
      rw [nodeOfRec_recOf n ha]
    · have ha2 : n.alive = false := by simpa using ha
      simp [ha2, Option.some_bind]
  · have hlen : db.nodes.length ≤ j := by omega
    rw [List.getElem?_eq_none (by simpa using hlen),
      List.getElem?_eq_none (by simpa using hlen)]
    rfl

theorem filter_alive_map (L : List (ℕ × Node)) :
    ((L.map fun p => (p.1, if p.2.alive then p.2 else tombstone)).filter
        fun p => p.2.alive) =
      L.filter fun p => p.2.alive := by
  induction L with
  | nil => simp
  | cons p ps ih =>
    simp only [List.map_cons, List.filter_cons]
    by_cases hp : p.2.alive = true
    · simp [hp, ih]
    · have hp2 : p.2.alive = false := by simpa using hp
      rw [if_neg (by simp [hp2, tombstone]), if_neg (by simp [hp2])]
      exact ih

theorem liveNodes_load_save (db : DB) : liveNodes (load (save db)) = liveNodes db := by
  unfold liveNodes
  rw [load_save_nodes, idxd_map_commute, filter_alive_map]

theorem load_save_edges (db : DB) : (load (save db)).edges = db.edges := rfl

theorem life_score_at_creation (n : Node) (now : ℚ) (h : n.last_access = now) :
    life_score n now = (n.significance : ℝ) * 10 + (n.access_count : ℝ) * 5 := by
  unfold life_score ageHours
  rw [h]
  have h0 : (max 0 ((now - now) / 3600) : ℚ) = 0 := by norm_num
  rw [h0]
  push_cast
  rw [add_zero, Real.logb_self_eq_one (by norm_num)]
  ring

theorem vacuum_fst_mem (db : DB) (t now : ℚ) (i : ℕ) :
    i ∈ (vacuum db t now).1 ↔
      ∃ n, db.nodes[i]? = some n ∧ n.alive = true ∧ life_score n now < (t : ℝ) := by
  simp only [vacuum, List.mem_map, List.mem_filter, decide_eq_true_eq]
  constructor
  · rintro ⟨⟨i', n⟩, ⟨hm, hs⟩, rfl⟩
    obtain ⟨hn, ha⟩ := (liveNodes_mem db i' n).mp hm
    exact ⟨n, hn, ha, hs⟩
  · rintro ⟨n, hn, ha, hs⟩
    exact ⟨(i, n), ⟨(liveNodes_mem db i n).mpr ⟨hn, ha⟩, hs⟩, rfl⟩

theorem vacuum_snd_getElem? (db : DB) (t now : ℚ) (i : ℕ) :
    (vacuum db t now).2.nodes[i]? =
      (db.nodes[i]?).map fun n => if i ∈ (vacuum db t now).1 then kill n else n := by
  show ((idxd 0 db.nodes).map fun p => if p.1 ∈ (vacuum db t now).1 then kill p.2 else p.2)[i]? = _
  rw [idxd_map_getElem? db.nodes _ 0 i]
  simp only [Nat.zero_add]

theorem vacuum_removed_dead (db : DB) (t now : ℚ) (i : ℕ)
    (h : i ∈ (vacuum db t now).1) :
    ∃ n, (vacuum db t now).2.nodes[i]? = some n ∧ n.alive = false := by
  obtain ⟨n, hn, -, -⟩ := (vacuum_fst_mem db t now i).mp h
  refine ⟨kill n, ?_, rfl⟩
  rw [vacuum_snd_getElem?, hn]
  simp [h]

theorem vacuum_survivor (db : DB) (t now : ℚ) (i : ℕ) (n : Node)
    (h : (vacuum db t now).2.nodes[i]? = some n) (ha : n.alive = true) :
    db.nodes[i]? = some n ∧ (t : ℝ) ≤ life_score n now := by
  rw [vacuum_snd_getElem? db t now i] at h
  obtain ⟨n0, hn0, hmap⟩ := Option.map_eq_some'.mp h
  by_cases hd : i ∈ (vacuum db t now).1
  · rw [if_pos hd] at hmap
    subst hmap
    simp [kill] at ha
  · rw [if_neg hd] at hmap
    subst hmap
    refine ⟨hn0, ?_⟩
    by_contra hlt
    exact hd ((vacuum_fst_mem db t now i).mpr ⟨n0, hn0, ha, by linarith [not_le.mp hlt]⟩)

theorem life_nZ : life_score nZ 0 = 0 := by
  rw [life_score_at_creation nZ 0 rfl]
  norm_num [nZ]

theorem life_nTen : life_score nTen 0 = 100 := by
  rw [life_score_at_creation nTen 0 rfl]
  norm_num [nTen]

theorem life_nA3 : life_score nA3 0 = 100 := by
  rw [life_score_at_creation nA3 0 rfl]
  norm_num [nA3]

theorem life_nB3 : life_score nB3 0 = 50 := by
  rw [life_score_at_creation nB3 0 rfl]
  norm_num [nB3]

theorem life_nC3 : life_score nC3node 0 = 10 := by
  rw [life_score_at_creation nC3node 0 rfl]
  norm_num [nC3node]

theorem vacuum_dbZ2 : vacuum dbZ2 5 0 = ([0], dbZ2post) := by
  have hz : life_score nZ 0 < ((5 : ℚ) : ℝ) := by rw [life_nZ]; norm_num
  have ht : ¬ life_score nTen 0 < ((5 : ℚ) : ℝ) := by rw [life_nTen]; norm_num
  have hlive : liveNodes dbZ2 = [(0, nZ), (1, nTen)] := by
    simp [liveNodes, dbZ2, idxd, nZ, nTen]
  simp only [vacuum, hlive, List.filter_cons, List.filter_nil, decide_eq_true_eq,
    hz, ht, if_true, if_false]
  simp [dbZ2, dbZ2post, idxd, nZ, nTen]

theorem vacuum_db3C : vacuum db3C 5 0 = ([], db3C) := by
  have hA : ¬ life_score nA3 0 < ((5 : ℚ) : ℝ) := by rw [life_nA3]; norm_num
  have hB : ¬ life_score nB3 0 < ((5 : ℚ) : ℝ) := by rw [life_nB3]; norm_num
  have hC : ¬ life_score nC3node 0 < ((5 : ℚ) : ℝ) := by rw [life_nC3]; norm_num
  have hlive : liveNodes db3C = [(0, nA3), (1, nB3), (2, nC3node)] := by
    simp [liveNodes, db3C, idxd, nA3, nB3, nC3node]
  simp only [vacuum, hlive, List.filter_cons, List.filter_nil, decide_eq_true_eq,
    hA, hB, hC, if_false]
  simp [db3C, idxd, nA3, nB3, nC3node]

theorem add_dbW : add_node freshDB ("x") [1, 0] 3 none 0 = .ok (0, dbW) := by
  unfold add_node
  rw [if_neg (by decide), if_neg (by norm_num [norm2, dot]), if_neg (by decide)]
  simp [freshDB, SpiderDB, dbW, nW, defaultMaxCapacity, mkNode, autoEdges]

theorem add_db3A : add_node freshDB ("A") [1, 0] 10 none 0 = .ok (0, db3A) := by
  unfold add_node
  rw [if_neg (by decide), if_neg (by norm_num [norm2, dot]), if_neg (by decide)]
  simp [freshDB, SpiderDB, db3A, nA3, defaultMaxCapacity, mkNode, autoEdges]

theorem add_db3B : add_node db3A ("B") [1, 0] 5 none 0 = .ok (1, db3B) := by
  unfold add_node
  rw [if_neg (by decide), if_neg (by norm_num [norm2, dot]), if_neg (by decide)]
  simp [db3A, db3B, nA3, nB3, mkNode, autoEdges]

theorem add_db3C : add_node db3B ("C") [1, 0] 1 none 0 = .ok (2, db3C) := by
  unfold add_node
  rw [if_neg (by decide), if_neg (by norm_num [norm2, dot]), if_neg (by decide)]
  simp [db3B, db3C, nA3, nB3, nC3node, mkNode, autoEdges]

theorem cosSim_opp : cosSim [-1, 0] [1, 0] = -1 := by
  have hd : dot [-1, 0] [1, 0] = -1 := by norm_num [dot]
  have h1 : norm2 ([-1, 0] : List ℚ) = 1 := by norm_num [norm2, dot]
  have h2 : norm2 ([1, 0] : List ℚ) = 1 := by norm_num [norm2, dot]
  rw [cosSim, hd, h1, h2]
  push_cast
  rw [Real.sqrt_one]
  norm_num

theorem knn_dbN_neg : knn dbN [-1, 0] 8 = [(0, (-1 : ℝ))] := by
  have hlive : liveNodes dbN = [(0, nN1)] := by simp [liveNodes, dbN, idxd, nN1]
  unfold knn knnCore
  rw [hlive]
  have he : nN1.embedding = [1, 0] := rfl
  simp [he, cosSim_opp, sortDesc, insertDesc]

theorem add_dbN2 : add_node dbN ("b") [-1, 0] 5 (some 0) 0 = .ok (1, dbN2) := by
  unfold add_node
  rw [if_neg (by decide), if_neg (by norm_num [norm2, dot]), if_neg (by decide)]
  simp only [autoEdges]
  rw [knn_dbN_neg]
  have hc : ¬ (((0 : ℚ) : ℝ) ≤ (-1 : ℝ)) := by norm_num
  simp only [List.filter_cons, List.filter_nil, decide_eq_true_eq, hc, if_false]
  simp [dbN, dbN2, nN1, nN2, mkNode]

theorem get_node_live (db : DB) (i : ℕ) (n : Node) (now : ℚ)
    (h : db.nodes[i]? = some n) (ha : n.alive = true) :
    get_node db i now =
      .ok (n.content, { db with nodes := db.nodes.set i (touch n now) }) := by
  unfold get_node
  rw [h]
  simp [ha]

theorem get_node_absent (db : DB) (i : ℕ) (now : ℚ) (h : db.nodes[i]? = none) :
    get_node db i now = .error .NotFound := by
  unfold get_node
  rw [h]

theorem get_node_dead (db : DB) (i : ℕ) (n : Node) (now : ℚ)
    (h : db.nodes[i]? = some n) (ha : n.alive = false) :
    get_node db i now = .error .NotFound := by
  unfold get_node
  rw [h]
  simp [ha]

theorem add_node_ok (db : DB) (c : String) (e : List ℚ) (sig : ℕ) (tau : Option ℚ)
    (now : ℚ) (h1 : dimOk db e = true) (h2 : ¬ norm2 e = 0) (h3 : sig ≤ 100) :
    add_node db c e sig tau now = .ok (db.nodes.length,
      { db with nodes := db.nodes ++ [mkNode c e sig now],
                edges := autoEdges db e tau ++ db.edges,
                dim := some e.length }) := by
  unfold add_node
  rw [if_neg (by simp [h1]), if_neg h2, if_neg (by omega)]

theorem add_node_inv (db : DB) (c : String) (e : List ℚ) (sig : ℕ) (tau : Option ℚ)
    (now : ℚ) (i : ℕ) (db2 : DB) (h : add_node db c e sig tau now = .ok (i, db2)) :
    i = db.nodes.length ∧ db2.nodes = db.nodes ++ [mkNode c e sig now] := by
  unfold add_node at h
  by_cases h1 : dimOk db e = false
  · rw [if_pos h1] at h
    simp at h
  · rw [if_neg h1] at h
    by_cases h2 : norm2 e = 0
    · rw [if_pos h2] at h
      simp at h
    · rw [if_neg h2] at h
      by_cases h3 : 100 < sig
      · rw [if_pos h3] at h
        simp at h
      · rw [if_neg h3] at h
        simp only [Except.ok.injEq, Prod.mk.injEq] at h
        obtain ⟨hid, hdb⟩ := h
        subst hdb
        exact ⟨hid.symm, rfl⟩

theorem mem_autoEdges (db : DB) (e : List ℚ) (t : ℚ) (b : ℕ) :
    (db.nodes.length, b) ∈ autoEdges db e (some t) ↔
      ∃ s, (b, s) ∈ knn db e 8 ∧ (t : ℝ) ≤ s := by
  simp only [autoEdges, List.mem_map, List.mem_filter, decide_eq_true_eq,
    Prod.mk.injEq, true_and]
  constructor
  · rintro ⟨⟨pb, ps⟩, ⟨hp, hs⟩, rfl⟩
    exact ⟨ps, hp, hs⟩
  · rintro ⟨s, hmem, hs⟩
    exact ⟨(b, s), ⟨hmem, hs⟩, rfl⟩

/-- C1: for every live node, calculate_life_score returns
(significance * 10 + access_count * 5) / log2(2 + age_hours) with
age_hours = max(0, (now - last_access) / 3600); in particular,
immediately after insertion (age 0, access_count 0) the denominator is 1
and a node of significance s scores exactly 10 * s. -/
theorem C1_life_score_formula (db : DB) (i : ℕ) (n : Node) (now : ℚ)
    (h : db.nodes[i]? = some n) (ha : n.alive = true) :
    calculate_life_score db i now =
      .ok (((n.significance * 10 + n.access_count * 5 : ℕ) : ℝ) /
        Real.logb 2 (2 + ((max 0 ((now - n.last_access) / 3600) : ℚ) : ℝ))) ∧
    (n.last_access = now → n.access_count = 0 →
      calculate_life_score db i now = .ok (10 * (n.significance : ℝ))) := by
  have hc : calculate_life_score db i now = .ok (life_score n now) := by
    unfold calculate_life_score
    rw [h]
    simp [ha]
  constructor
  · rw [hc]
    rfl
  · intro hl hacc
    rw [hc, life_score_at_creation n now hl, hacc]
    simp
    ring

/-- C1 witness: on a store with a single significance-7 node created at
time 0, calculate_life_score at time 0 returns exactly 70. -/
theorem C1_witness :
    db1w.nodes[0]? = some n1w ∧ n1w.alive = true ∧
      calculate_life_score db1w 0 0 = .ok (10 * (n1w.significance : ℝ)) :=
  ⟨rfl, rfl, (C1_life_score_formula db1w 0 n1w 0 rfl rfl).2 rfl rfl⟩

/-- C2: vacuum(t) removes exactly the live nodes whose life score at the
moment of the call is strictly below t and returns the list of their
ids; removed ids are dead afterwards, and every node still alive after
the call had life score at least t at the moment of the call. -/
theorem C2_vacuum_exact (db : DB) (t now : ℚ) :
    (∀ i, i ∈ (vacuum db t now).1 ↔
      ∃ n, db.nodes[i]? = some n ∧ n.alive = true ∧ life_score n now < (t : ℝ)) ∧
    (∀ i, i ∈ (vacuum db t now).1 →
      ∃ n, (vacuum db t now).2.nodes[i]? = some n ∧ n.alive = false) ∧
    (∀ (i : ℕ) (n : Node), (vacuum db t now).2.nodes[i]? = some n → n.alive = true →
      db.nodes[i]? = some n ∧ (t : ℝ) ≤ life_score n now) :=
  ⟨vacuum_fst_mem db t now, vacuum_removed_dead db t now, vacuum_survivor db t now⟩

/-- C2 witness: on a two-node store (significance 0 and 10, both fresh),
vacuum at threshold 5 removes node 0, which is dead afterwards, while
the surviving node 10 had score at least 5 at the moment of the call. -/
theorem C2_witness :
    (0 ∈ (vacuum dbZ2 5 0).1) ∧
    (∃ n, (vacuum dbZ2 5 0).2.nodes[0]? = some n ∧ n.alive = false) ∧
    (dbZ2.nodes[1]? = some nTen ∧ ((5 : ℚ) : ℝ) ≤ life_score nTen 0) := by
  have hmem : 0 ∈ (vacuum dbZ2 5 0).1 :=
    ((C2_vacuum_exact dbZ2 5 0).1 0).mpr
      ⟨nZ, rfl, rfl, by rw [life_nZ]; norm_num⟩
  refine ⟨hmem, (C2_vacuum_exact dbZ2 5 0).2.1 0 hmem, ?_⟩
  refine (C2_vacuum_exact dbZ2 5 0).2.2 1 nTen ?_ rfl
  rw [vacuum_dbZ2]
  rfl

/-- C3 counterexample: inserting three nodes with significance 10, 5 and
1 and calling vacuum(5.0) immediately removes nothing at all, because
the significance-1 node scores 10, which is not below 5; in particular
the significance-1 node is not removed, contrary to the claim. -/
theorem C3_counterexample :
    add_node freshDB ("A") [1, 0] 10 none 0 = .ok (0, db3A) ∧
    add_node db3A ("B") [1, 0] 5 none 0 = .ok (1, db3B) ∧
    add_node db3B ("C") [1, 0] 1 none 0 = .ok (2, db3C) ∧
    (vacuum db3C 5 0).1 = [] :=
  ⟨add_db3A, add_db3B, add_db3C, by rw [vacuum_db3C]⟩

/-- C3 amended: if three nodes are inserted with significance 10, 5 and
1 and vacuum(5.0) is called immediately, no node is removed: the life
scores are 100, 50 and 10, all at least the threshold, so all three
nodes (including the significance-1 node) stay alive. -/
theorem C3_amended_no_removal :
    add_node freshDB ("A") [1, 0] 10 none 0 = .ok (0, db3A) ∧
    add_node db3A ("B") [1, 0] 5 none 0 = .ok (1, db3B) ∧
    add_node db3B ("C") [1, 0] 1 none 0 = .ok (2, db3C) ∧
    vacuum db3C 5 0 = ([], db3C) ∧
    life_score nA3 0 = 100 ∧ life_score nB3 0 = 50 ∧ life_score nC3node 0 = 10 :=
  ⟨add_db3A, add_db3B, add_db3C, vacuum_db3C, life_nA3, life_nB3, life_nC3⟩

/-- C4: in the spec model, add_node rejects every zero-norm embedding
with a ZeroVector error instead of returning a node id (the repository's
regression test instead inserts the dummy vector [0, 0] at line 9 of
test_spider.py and relies on the returned id, contradicting this). -/
theorem C4_zero_vector_rejected (db : DB) (c : String) (sig : ℕ) (tau : Option ℚ)
    (now : ℚ) (h : dimOk db [0, 0] = true) :
    add_node db c [0, 0] sig tau now = .error .ZeroVector := by
  unfold add_node
  rw [if_neg (by simp [h]), if_pos (by norm_num [norm2, dot])]

/-- C4 witness: the exact insertion performed by the regression test
(content, dummy vector [0, 0], significance 1) fails with ZeroVector in
the spec model. -/
theorem C4_witness :
    dimOk freshDB [0, 0] = true ∧
    add_node freshDB ("Funny Cat Meme") [0, 0] 1 none 0 = .error .ZeroVector :=
  ⟨by decide, C4_zero_vector_rejected freshDB ("Funny Cat Meme") 1 none 0 (by decide)⟩

/-- C5: save followed by load preserves every live node verbatim
(content, embedding, significance, cluster id and access bookkeeping)
and the whole edge table, and hybrid_search on the same query vector
returns literally identical results (the exact-arithmetic model makes
the floating-point tolerance exact equality). -/
theorem C5_save_load_roundtrip (db : DB) :
    (∀ (i : ℕ) (n : Node), db.nodes[i]? = some n → n.alive = true →
      (load (save db)).nodes[i]? = some n) ∧
    (load (save db)).edges = db.edges ∧
    (∀ (q : List ℚ) (k ef : ℕ) (now : ℚ), hybrid_search (load (save db)) q k ef now =
      hybrid_search db q k ef now) := by
  refine ⟨?_, load_save_edges db, ?_⟩
  · intro i n h ha
    rw [load_save_nodes, List.getElem?_map, h]
    simp [ha]
  · intro q k ef now
    unfold hybrid_search
    rw [liveNodes_load_save, load_save_edges]

/-- C5 witness: the round trip on a concrete two-node store with an edge
preserves node 0, the edge list, and a concrete hybrid_search call. -/
theorem C5_witness :
    (load (save db5)).nodes[0]? = some n5a ∧
    (load (save db5)).edges = db5.edges ∧
    hybrid_search (load (save db5)) [1, 0] 1 50 0 = hybrid_search db5 [1, 0] 1 50 0 :=
  ⟨(C5_save_load_roundtrip db5).1 0 n5a rfl rfl, (C5_save_load_roundtrip db5).2.1,
    (C5_save_load_roundtrip db5).2.2 [1, 0] 1 50 0⟩

/-- C6: every id returned by add_node supports get_node, which returns
the stored content, until vacuum removes the node; an absent id, a dead
id, and a vacuum-removed id all fail with NotFound. -/
theorem C6_get_node_contract :
    (∀ (db : DB) (c : String) (e : List ℚ) (sig : ℕ) (tau : Option ℚ)
        (now : ℚ) (i : ℕ) (db2 : DB) (now2 : ℚ),
      add_node db c e sig tau now = .ok (i, db2) →
      ∃ db3, get_node db2 i now2 = .ok (c, db3)) ∧
    (∀ (db : DB) (i : ℕ) (now : ℚ),
      db.nodes[i]? = none → get_node db i now = .error .NotFound) ∧
    (∀ (db : DB) (i : ℕ) (n : Node) (now : ℚ),
      db.nodes[i]? = some n → n.alive = false →
      get_node db i now = .error .NotFound) ∧
    (∀ (db : DB) (t now : ℚ) (i : ℕ) (now2 : ℚ), i ∈ (vacuum db t now).1 →
      get_node (vacuum db t now).2 i now2 = .error .NotFound) := by
  refine ⟨?_, get_node_absent, get_node_dead, ?_⟩
  · intro db c e sig tau now i db2 now2 h
    obtain ⟨hid, hnodes⟩ := add_node_inv db c e sig tau now i db2 h
    subst hid
    have hget : db2.nodes[db.nodes.length]? = some (mkNode c e sig now) := by
      rw [hnodes]
      exact List.getElem?_concat_length _ _
    exact ⟨_, get_node_live db2 db.nodes.length _ now2 hget rfl⟩
  · intro db t now i now2 h
    obtain ⟨n, hn, hdead⟩ := vacuum_removed_dead db t now i h
    exact get_node_dead _ i n now2 hn hdead

/-- C6 witness: a freshly added node is readable with its content, a
missing id and a vacuumed id yield NotFound. -/
theorem C6_witness :
    (∃ db3, get_node dbW 0 1 = .ok (("x" : String), db3)) ∧
    get_node freshDB 5 0 = .error .NotFound ∧
    (0 ∈ (vacuum dbZ2 5 0).1) ∧
    get_node (vacuum dbZ2 5 0).2 0 7 = .error .NotFound := by
  have hmem : 0 ∈ (vacuum dbZ2 5 0).1 := by
    rw [vacuum_dbZ2]
    simp
  exact ⟨C6_get_node_contract.1 freshDB ("x") [1, 0] 3 none 0 0 dbW 1 add_dbW,
    C6_get_node_contract.2.1 freshDB 5 0 rfl, hmem,
    C6_get_node_contract.2.2.2 dbZ2 5 0 0 7 hmem⟩

/-- C7: a successful get_node returns the stored content and increments
exactly the target node's access_count by one while setting its
last_access to now; the node's other fields, every other node, the edge
table and the parameters are unchanged. -/
theorem C7_reinforce_frame (db : DB) (i : ℕ) (n : Node) (now : ℚ)
    (h : db.nodes[i]? = some n) (ha : n.alive = true) :
    ∃ db2, get_node db i now = .ok (n.content, db2) ∧
      db2.nodes[i]? =
        some { n with access_count := n.access_count + 1, last_access := now } ∧
      (∀ j, j ≠ i → db2.nodes[j]? = db.nodes[j]?) ∧
      db2.edges = db.edges ∧ db2.m = db.m ∧
      db2.ef_construction = db.ef_construction ∧
      db2.max_capacity = db.max_capacity ∧ db2.dim = db.dim := by
  refine ⟨_, get_node_live db i n now h ha, ?_, ?_, rfl, rfl, rfl, rfl, rfl⟩
  · have hlen : i < db.nodes.length := by
      by_contra hcon
      rw [List.getElem?_eq_none (by omega)] at h
      simp at h
    rw [List.getElem?_set]
    simp [hlen, touch]
  · intro j hj
    exact List.getElem?_set_ne (Ne.symm hj)

/-- C7 witness: reading the single node of a concrete store returns its
content and bumps its access_count from 0 to 1 with last_access 9. -/
theorem C7_witness :
    ∃ db2, get_node dbW 0 9 = .ok (nW.content, db2) ∧
      db2.nodes[0]? =
        some { nW with access_count := nW.access_count + 1, last_access := 9 } :=
  (C7_reinforce_frame dbW 0 nW 9 rfl rfl).imp fun db2 hh => ⟨hh.1, hh.2.1⟩

/-- C8: knn and hybrid_search return only live ids: every (id, score)
pair refers to a live node, and an id removed by vacuum is dead in the
post state, so no subsequent search on that state can return it. -/
theorem C8_search_never_tombstoned (db : DB) :
    (∀ q k p, p ∈ knn db q k → ∃ n, db.nodes[p.1]? = some n ∧ n.alive = true) ∧
    (∀ q k ef now p, p ∈ hybrid_search db q k ef now →
      ∃ n, db.nodes[p.1]? = some n ∧ n.alive = true) ∧
    (∀ t now i, i ∈ (vacuum db t now).1 →
      ∀ q k s, (((i, s) : ℕ × ℝ) ∉ knn (vacuum db t now).2 q k) ∧
        ∀ ef now2, ((i, s) : ℕ × ℝ) ∉ hybrid_search (vacuum db t now).2 q k ef now2) := by
  have hknn : ∀ (d : DB) q k p, p ∈ knn d q k →
      ∃ n, d.nodes[p.1]? = some n ∧ n.alive = true := by
    intro d q k p hp
    obtain ⟨n, hn⟩ := knnCore_mem (liveNodes d) q k p hp
    exact ⟨n, (liveNodes_mem d p.1 n).mp hn⟩
  have hhyb : ∀ (d : DB) q k ef now p, p ∈ hybrid_search d q k ef now →
      ∃ n, d.nodes[p.1]? = some n ∧ n.alive = true := by
    intro d q k ef now p hp
    obtain ⟨n, hn⟩ := hybridCore_mem (liveNodes d) d.edges q k ef now p hp
    exact ⟨n, (liveNodes_mem d p.1 n).mp hn⟩
  refine ⟨hknn db, hhyb db, ?_⟩
  intro t now i hi q k s
  obtain ⟨m, hm, hdead⟩ := vacuum_removed_dead db t now i hi
  constructor
  · intro hmem
    obtain ⟨n, hn, halive⟩ := hknn _ q k (i, s) hmem
    have hn2 : (vacuum db t now).2.nodes[i]? = some n := hn
    rw [hm] at hn2
    obtain rfl := Option.some.inj hn2
    exact absurd halive (by simp [hdead])
  · intro ef now2 hmem
    obtain ⟨n, hn, halive⟩ := hhyb _ q k ef now2 (i, s) hmem
    have hn2 : (vacuum db t now).2.nodes[i]? = some n := hn
    rw [hm] at hn2
    obtain rfl := Option.some.inj hn2
    exact absurd halive (by simp [hdead])

/-- C8 witness: after vacuuming the significance-0 node out of a
concrete store, its id 0 cannot be returned by a knn call on the post
state. -/
theorem C8_witness :
    (0 ∈ (vacuum dbZ2 5 0).1) ∧
    (((0, (0 : ℝ)) : ℕ × ℝ) ∉ knn (vacuum dbZ2 5 0).2 [1, 0] 3) := by
  have hmem : 0 ∈ (vacuum dbZ2 5 0).1 := by
    rw [vacuum_dbZ2]
    simp
  exact ⟨hmem, ((C8_search_never_tombstoned dbZ2).2.2 5 0 0 hmem [1, 0] 3 0).1⟩

/-- C9 (amended): with auto_link_threshold tau in [0, 1], add_node links
the new node to exactly those returned 8-NN neighbors whose returned
cosine similarity is at least tau; since similarity can be negative,
tau = 0 links exactly the nonnegatively-similar returned neighbors (not
necessarily all of them), and tau = 1 links only neighbors of similarity
exactly 1. -/
theorem C9_auto_link_exact (db : DB) (c : String) (e : List ℚ) (sig : ℕ) (t : ℚ)
    (now : ℚ) (h1 : dimOk db e = true) (h2 : ¬ norm2 e = 0) (h3 : sig ≤ 100)
    (h4 : 0 ≤ t) (h5 : t ≤ 1) :
    ∃ db2, add_node db c e sig (some t) now = .ok (db.nodes.length, db2) ∧
      db2.edges = autoEdges db e (some t) ++ db.edges ∧
      (∀ b : ℕ, (db.nodes.length, b) ∈ db2.edges ↔
        ((db.nodes.length, b) ∈ db.edges ∨
          ∃ s, (b, s) ∈ knn db e 8 ∧ (t : ℝ) ≤ s)) := by
  refine ⟨_, add_node_ok db c e sig (some t) now h1 h2 h3, rfl, ?_⟩
  intro b
  show (db.nodes.length, b) ∈ autoEdges db e (some t) ++ db.edges ↔ _
  rw [List.mem_append, mem_autoEdges, or_comm]

/-- C9 witness: adding a node to a one-node store with threshold 1/2
succeeds and returns the minted id. -/
theorem C9_witness :
    dimOk dbN [1, 0] = true ∧ (0 : ℚ) ≤ 1/2 ∧ (1/2 : ℚ) ≤ 1 ∧
    (∃ db2, add_node dbN ("w") [1, 0] 3 (some (1/2)) 0 = .ok (dbN.nodes.length, db2)) := by
  refine ⟨by decide, by norm_num, by norm_num, ?_⟩
  exact (C9_auto_link_exact dbN ("w") [1, 0] 3 (1/2) 0 (by decide)
    (by norm_num [norm2, dot]) (by norm_num) (by norm_num) (by norm_num)).imp
    fun db2 hh => hh.1

/-- C9 counterexample: with tau = 0 the engine does not link to every
returned neighbor: adding the opposite unit vector with threshold 0
returns neighbor 0 with similarity -1, yet the resulting store has no
edge at all. -/
theorem C9_counterexample :
    (((0 : ℕ), (-1 : ℝ)) ∈ knn dbN [-1, 0] 8) ∧
    add_node dbN ("b") [-1, 0] 5 (some 0) 0 = .ok (1, dbN2) ∧
    dbN2.edges = [] :=
  ⟨by rw [knn_dbN_neg]; simp, add_dbN2, rfl⟩

/-- C10: construction succeeds with any parameters omitted or null: with
no stored snapshot the engine is fresh and missing parameters take the
built-in defaults (M = 16, ef_construction = 200, the default capacity),
while an existing snapshot is loaded and the tuning parameters are
ignored. -/
theorem C10_constructor_defaults :
    (∀ cap mp efc, SpiderDB none cap mp efc =
      { nodes := [], edges := [], m := mp.getD 16, ef_construction := efc.getD 200,
        max_capacity := cap.getD defaultMaxCapacity, dim := none }) ∧
    (SpiderDB none none none none).m = 16 ∧
    (SpiderDB none none none none).ef_construction = 200 ∧
    (SpiderDB none none none none).max_capacity = defaultMaxCapacity ∧
    (SpiderDB none none none none).nodes = [] ∧
    (∀ s cap mp efc, SpiderDB (some s) cap mp efc = load s) :=
  ⟨fun _ _ _ => rfl, rfl, rfl, rfl, rfl, fun _ _ _ _ => rfl⟩

end Spider
